import Mathlib

/-!
Verification development for the PLC acquisition backend.

The definitions below are a shallow embedding of the JavaScript sources:

* `DataQueue.js` — the two bounded FIFO queues (`pushToPlcQueue`,
  `pushToDbQueue`, `popFromPlcQueue`) with `MAX_QUEUE_SIZE = 100` and the
  evict-oldest-then-push policy;
* `PlcHelper.js` (routes module's helper) — `getPlcData` and
  `sendDefectTrigger` with their `MAX_RETRY_ATTEMPTS = 3` retry loops and
  the `withPlcLock` promise-chain mutex;
* `PlcRoutes.js` — the module-level state (`latestPlcData`, `lastSavedData`,
  `lastProcessStart`, `currentProcess`, `defectQueue`), `hasImportantChange`,
  `handleProcessLogic`, `handleDetectResult`, `readLoop`, and the DB-writer
  and defect-processor intervals installed by `startPlcPolling`.

Hardware and store effects are made explicit: per-attempt outcomes are
oracle functions (`Nat → Option _` / `Nat → Bool`), wall-clock times and
fresh identifiers are parameters, and hardware interactions are recorded
as explicit event traces.
-/

namespace PlcBackend

/-! ## Data model: telemetry frames (`getPlcData` result object) -/

/-- Constant `STATUS_MAP = ["STOPPED", "RUNNING", "IDLE", "FAULT"]` from `PlcHelper.js`. -/
def STATUS_MAP : List String := ["STOPPED", "RUNNING", "IDLE", "FAULT"]

/-- The object assembled by `getPlcData` from the 12 registers D100–D111:
`machineStatusCode` (D100), `totalProduction` (D101), `alarmCode` (D102),
`fabricLength` (D103), `processStart` (D106), `machineRunning` (D110),
`defectRegister` (D111), plus the derived `machineStatus` string and a
`timestamp`. -/
structure PlcData where
  machineStatusCode : Nat
  machineStatus : String
  totalProduction : Nat
  alarmCode : Nat
  fabricLength : Nat
  processStart : Nat
  machineRunning : Nat
  defectRegister : Nat
  timestamp : Nat
deriving Repr, DecidableEq

/-- Builds the `getPlcData` result object from the register block
`res.data` (`data[0]`, `data[1]`, `data[2]`, `data[3]`, `data[6]`,
`data[10]`, `data[11]`) and the current wall-clock `now`
(`timestamp: new Date()`).  `machineStatus` is
`STATUS_MAP[data[0]] || "UNKNOWN"`. -/
def mkPlcData (regs : List Nat) (now : Nat) : PlcData :=
  { machineStatusCode := regs.getD 0 0
    machineStatus := STATUS_MAP.getD (regs.getD 0 0) "UNKNOWN"
    totalProduction := regs.getD 1 0
    alarmCode := regs.getD 2 0
    fabricLength := regs.getD 3 0
    processStart := regs.getD 6 0
    machineRunning := regs.getD 10 0
    defectRegister := regs.getD 11 0
    timestamp := now }

/-! ## DataQueue.js -/

/-- Constant `MAX_QUEUE_SIZE = 100` in `DataQueue.js`. -/
def MAX_QUEUE_SIZE : Nat := 100

/-- Entry pushed by `pushToPlcQueue`: `{ type: 'telemetry', data, timestamp }`. -/
structure PlcQueueEntry (α : Type) where
  typeTag : String
  data : α
  timestamp : Nat
deriving Repr, DecidableEq

/-- Entry pushed by `pushToDbQueue`:
`{ type, data, timestamp, attempts: 0, lastError: null }`. -/
structure DbQueueEntry (α : Type) where
  typeTag : String
  data : α
  timestamp : Nat
  attempts : Nat
  lastError : Option String
deriving Repr, DecidableEq

/-- The common push-when-full policy of both queues in `DataQueue.js`:
if the queue already holds at least `cap` entries, `shift()` the oldest
out, then `push` the new entry at the back. -/
def pushBounded (cap : Nat) (q : List α) (x : α) : List α :=
  if cap ≤ q.length then q.tail ++ [x] else q ++ [x]

/-- Function `DataQueue.pushToPlcQueue(data)`: wraps `data` with the `'telemetry'`
tag and `Date.now()`, applying the bounded-push policy at
`MAX_QUEUE_SIZE`. -/
def pushToPlcQueue (q : List (PlcQueueEntry α)) (data : α) (now : Nat) :
    List (PlcQueueEntry α) :=
  pushBounded MAX_QUEUE_SIZE q { typeTag := "telemetry", data := data, timestamp := now }

/-- Function `DataQueue.pushToDbQueue(defectData)`: wraps the record with
`defectData.type || 'defect'`, `Date.now()`, `attempts: 0`,
`lastError: null`, applying the bounded-push policy at `MAX_QUEUE_SIZE`.
`tag` is the record's `type` field (`none` when absent, in which case
`'defect'` is used). -/
def pushToDbQueue (q : List (DbQueueEntry α)) (tag : Option String) (data : α)
    (now : Nat) : List (DbQueueEntry α) :=
  pushBounded MAX_QUEUE_SIZE q
    { typeTag := tag.getD "defect", data := data, timestamp := now
      attempts := 0, lastError := none }

/-- Function `DataQueue.popFromPlcQueue()`: `shift() || null`. -/
def popFromPlcQueue (q : List (PlcQueueEntry α)) :
    Option (PlcQueueEntry α) × List (PlcQueueEntry α) :=
  match q with
  | [] => (none, [])
  | e :: rest => (some e, rest)

/-- The entry `pushToPlcQueue` builds from a payload and a push time. -/
def plcEntryOf (it : α × Nat) : PlcQueueEntry α :=
  { typeTag := "telemetry", data := it.1, timestamp := it.2 }

/-- The entry `pushToDbQueue` builds from a type tag, payload and push time. -/
def dbEntryOf (it : Option String × α × Nat) : DbQueueEntry α :=
  { typeTag := it.1.getD "defect", data := it.2.1, timestamp := it.2.2
    attempts := 0, lastError := none }

/-! ## PlcHelper.js: configuration, retry loops, pulse writes

The helper reads its configuration from `process.env` (`PLC_IP`,
`PLC_PORT`, `PLC_UNIT_ID`).  We model the numeric environment as an
association list.  Per-attempt hardware outcomes are oracle functions
indexed by the attempt number (starting at 1, as in the `for` loops). -/

/-- The numeric part of `process.env` as seen by `PlcHelper.js`. -/
def Env : Type := List (String × Nat)

/-- Constant `const PLC_PORT = Number(process.env.PLC_PORT) || 502`. -/
def PLC_PORT (env : Env) : Nat := ((env.lookup "PLC_PORT").getD 502)

/-- Constant `const PLC_UNIT_ID = Number(process.env.PLC_UNIT_ID) || 1`. -/
def PLC_UNIT_ID (env : Env) : Nat := ((env.lookup "PLC_UNIT_ID").getD 1)

/-- Constant `const MAX_RETRY_ATTEMPTS = 3` in `PlcHelper.js`. -/
def MAX_RETRY_ATTEMPTS : Nat := 3

/-- Constant `const RETRY_DELAY = 1000` in `PlcHelper.js` (a literal; reads no
configuration). -/
def RETRY_DELAY (_env : Env) : Nat := 1000

/-- The hold between the two writes of `sendDefectTrigger` is the literal
`await delay(2000)` in `PlcHelper.js`; it reads no configuration, so this
function ignores its environment argument. -/
def DEFECT_HOLD_MS (_env : Env) : Nat := 2000

/-- The retry loop shared by `getPlcData` and the write helpers:
`for (attempt = 1; attempt <= MAX_RETRY_ATTEMPTS; attempt++) { try {… return v}
catch {…} }; return null`.  `oracle a` is the outcome of attempt `a`
(`some v` = the `try` body returned `v`; `none` = it threw).  `a` is the
next attempt number and `r` the remaining budget. -/
def retryLoop (oracle : Nat → Option α) : Nat → Nat → Option α
  | _, 0 => none
  | a, r + 1 =>
    match oracle a with
    | some v => some v
    | none => retryLoop oracle (a + 1) r

/-- Number of attempts the retry loop actually makes. -/
def retryCalls (oracle : Nat → Option α) : Nat → Nat → Nat
  | _, 0 => 0
  | a, r + 1 =>
    match oracle a with
    | some _ => 1
    | none => 1 + retryCalls oracle (a + 1) r

/-- Function `getPlcData()`: retries the block read of registers 100–111 up to
`MAX_RETRY_ATTEMPTS` times; on the first attempt whose
`readHoldingRegisters(100, 12)` succeeds it builds and returns the data
object; after all attempts fail it returns `null`.  `hw a` is the register
block delivered by attempt `a` (`none` = that attempt threw). -/
def getPlcData (hw : Nat → Option (List Nat)) (now : Nat) : Option PlcData :=
  (retryLoop hw 1 MAX_RETRY_ATTEMPTS).map (fun regs => mkPlcData regs now)

/-- Attempts made by `getPlcData`. -/
def getPlcDataCalls (hw : Nat → Option (List Nat)) : Nat :=
  retryCalls hw 1 MAX_RETRY_ATTEMPTS

/-! ### Hardware event traces (pulse writes, record inserts) -/

/-- A defect record as built by the defect-processor interval in
`PlcRoutes.js`:  `{ type: "defect", processId, textileId, count, defectId,
confidence, lengthAtDetection, timestamp }`. -/
structure DefectRecord where
  processId : Nat
  textileId : Nat
  count : Nat
  defectId : Nat
  confidence : Nat
  lengthAtDetection : Option Nat
  timestamp : Nat
deriving Repr, DecidableEq

/-- Observable actions of the defect path: register writes, fixed delays,
and store inserts. -/
inductive PlcEvent where
  | write (addr val : Nat)
  | wait (ms : Nat)
  | insert (rec : DefectRecord)
deriving Repr, DecidableEq

/-- The event sequence of one successful `sendDefectTrigger` attempt:
`writeRegister(111, 1)`, `delay(2000)`, `writeRegister(111, 0)`. -/
def pulseEvents (env : Env) : List PlcEvent :=
  [.write 111 1, .wait (DEFECT_HOLD_MS env), .write 111 0]

/-- Function `sendDefectTrigger()`: the same retry loop, where a successful attempt
emits the full pulse (`pulseEvents`) and returns `true`, a failing attempt
emits the partial trace `partial a` (whatever the attempt did before its
exception) and moves on, and exhaustion returns `false`.  Result: the
returned boolean and the emitted event trace. -/
def sendDefectTriggerRun (env : Env) (ok : Nat → Bool)
    (pfx : Nat → List PlcEvent) : Nat → Nat → Bool × List PlcEvent
  | _, 0 => (false, [])
  | a, r + 1 =>
    if ok a then (true, pulseEvents env)
    else
      let p := sendDefectTriggerRun env ok pfx (a + 1) r
      (p.1, pfx a ++ p.2)

/-- Result boolean of `sendDefectTrigger`. -/
def sendDefectTrigger (env : Env) (ok : Nat → Bool)
    (pfx : Nat → List PlcEvent) : Bool :=
  (sendDefectTriggerRun env ok pfx 1 MAX_RETRY_ATTEMPTS).1

/-- Attempts made by `sendDefectTrigger`. -/
def sendDefectTriggerCalls (ok : Nat → Bool) : Nat :=
  retryCalls (fun a => if ok a then some () else none) 1 MAX_RETRY_ATTEMPTS

/-! ## PlcRoutes.js: module state and handlers -/

/-- The open process record built on a 0→1 edge of `processStart`
(`handleProcessLogic`): `{ processId: uuidv4(), textileId:
generateTextileId(), startTime: new Date(), startProduction, startLength }`.
The generated identifiers are modelled as `Nat` parameters of the step
functions. -/
structure Process where
  processId : Nat
  textileId : Nat
  startTime : Nat
  startProduction : Nat
  startLength : Nat
deriving Repr, DecidableEq

/-- The `process_summary` record built on a 1→0 edge. `durationMinutes`
is `(endTime - startTime) / 60000` as an exact rational; the production
and fabric deltas are JS number subtractions, so they may be negative. -/
structure SummaryRec where
  processId : Nat
  textileId : Nat
  startTime : Nat
  endTime : Nat
  durationMinutes : ℚ
  production : Int
  fabricProcessed : Int
deriving Repr, DecidableEq

/-- The telemetry record enqueued by `readLoop`:
`{ type: "telemetry", processId: currentProcess?.processId || null,
textileId: currentProcess?.textileId || null, ...data }`. -/
structure TelemetryRec where
  processId : Option Nat
  textileId : Option Nat
  data : PlcData
deriving Repr, DecidableEq

/-- A defect event posted by the inspection service to `/detect-result`:
`{ defect, count, defectId, confidence, timestamp }`. -/
structure DefectEvent where
  defect : Bool
  count : Nat
  defectId : Nat
  confidence : Nat
  timestamp : Nat
deriving Repr, DecidableEq

/-- The module-level mutable state of `PlcRoutes.js`:
`latestPlcData`, `lastSavedData`, `lastProcessStart`, `currentProcess`,
`defectQueue`, `isProcessingDefect`, plus the two queues owned by
`DataQueue.js`. -/
structure ServerState where
  latestPlcData : Option PlcData
  lastSavedData : Option PlcData
  lastProcessStart : Nat
  currentProcess : Option Process
  defectQueue : List DefectEvent
  isProcessingDefect : Bool
  plcQueue : List (PlcQueueEntry TelemetryRec)
  dbQueue : List (DbQueueEntry SummaryRec)
deriving Repr, DecidableEq

/-- The initial module state: `latestPlcData = null`, `lastSavedData =
null`, `lastProcessStart = 0`, `currentProcess = null`, empty queues. -/
def initialState : ServerState :=
  { latestPlcData := none, lastSavedData := none, lastProcessStart := 0
    currentProcess := none, defectQueue := [], isProcessingDefect := false
    plcQueue := [], dbQueue := [] }

/-- Function `hasImportantChange(data)`: `true` when nothing has been saved yet,
else the disjunction of `!==` over the seven compared fields
(`machineStatusCode`, `totalProduction`, `fabricLength`, `alarmCode`,
`processStart`, `machineRunning`, `defectRegister`), read against the
module's `lastSavedData`. -/
def hasImportantChange (lastSavedData : Option PlcData) (data : PlcData) : Bool :=
  match lastSavedData with
  | none => true
  | some l =>
    (data.machineStatusCode != l.machineStatusCode) ||
    (data.totalProduction != l.totalProduction) ||
    (data.fabricLength != l.fabricLength) ||
    (data.alarmCode != l.alarmCode) ||
    (data.processStart != l.processStart) ||
    (data.machineRunning != l.machineRunning) ||
    (data.defectRegister != l.defectRegister)

/-- Equality on exactly the seven fields `hasImportantChange` compares. -/
def sameImportantFields (a b : PlcData) : Prop :=
  a.machineStatusCode = b.machineStatusCode ∧
  a.totalProduction = b.totalProduction ∧
  a.fabricLength = b.fabricLength ∧
  a.alarmCode = b.alarmCode ∧
  a.processStart = b.processStart ∧
  a.machineRunning = b.machineRunning ∧
  a.defectRegister = b.defectRegister

/-- The summary object built when a process ends, from the open process
`cp`, the closing frame `data` and the end time `now`. -/
def mkSummary (cp : Process) (data : PlcData) (now : Nat) : SummaryRec :=
  { processId := cp.processId
    textileId := cp.textileId
    startTime := cp.startTime
    endTime := now
    durationMinutes := ((now : ℚ) - (cp.startTime : ℚ)) / 60000
    production := (data.totalProduction : Int) - (cp.startProduction : Int)
    fabricProcessed := (data.fabricLength : Int) - (cp.startLength : Int) }

/-- The process record opened on a 0→1 edge: `{ processId: uuidv4(),
textileId: generateTextileId(), startTime: new Date(), startProduction:
data.totalProduction, startLength: data.fabricLength }`. -/
def mkFreshProcess (pid tid now : Nat) (data : PlcData) : Process :=
  { processId := pid, textileId := tid, startTime := now
    startProduction := data.totalProduction
    startLength := data.fabricLength }

/-- Function `handleProcessLogic(data)` instrumented with its output: the returned
list is the `process_summary` records pushed to the DB queue during this
call (`[]` or a singleton).  The state component also performs the push,
so the instrumented output adds no behaviour.

Source structure: (1) if `processStart === 1 && lastProcessStart === 0`,
open a fresh process; (2) if `processStart === 0 && lastProcessStart === 1
&& currentProcess`, build the summary, `DataQueue.pushToDbQueue(summary)`,
clear `currentProcess`; (3) `lastProcessStart = data.processStart`. -/
def handleProcessLogicE (pid tid now : Nat) (s : ServerState) (data : PlcData) :
    ServerState × List SummaryRec :=
  let fresh := mkFreshProcess pid tid now data
  let s1 :=
    if data.processStart = 1 ∧ s.lastProcessStart = 0 then
      { s with currentProcess := some fresh }
    else s
  let step2 : ServerState × List SummaryRec :=
    match s1.currentProcess with
    | some cp =>
      if data.processStart = 0 ∧ s1.lastProcessStart = 1 then
        let summary := mkSummary cp data now
        ({ s1 with
            dbQueue := pushToDbQueue s1.dbQueue (some "process_summary") summary now
            currentProcess := none }, [summary])
      else (s1, [])
    | none => (s1, [])
  ({ step2.1 with lastProcessStart := data.processStart }, step2.2)

/-- Function `handleProcessLogic(data)`: the state effect alone. -/
def handleProcessLogic (pid tid now : Nat) (s : ServerState) (data : PlcData) :
    ServerState :=
  (handleProcessLogicE pid tid now s data).1

/-- The telemetry record built in `readLoop` before the queue push. -/
def mkTelemetryRec (cur : Option Process) (data : PlcData) : TelemetryRec :=
  { processId := cur.map Process.processId
    textileId := cur.map Process.textileId
    data := data }

/-- One `readLoop()` tick.  `result` is what `getPlcData()` returned.
On `null` the tick returns immediately.  Otherwise: set `latestPlcData`,
run `handleProcessLogic`, and if `hasImportantChange(data)` holds push the
telemetry record to the PLC queue and set `lastSavedData = { ...data }`. -/
def readLoopStep (pid tid now : Nat) (s : ServerState) (result : Option PlcData) :
    ServerState :=
  match result with
  | none => s
  | some data =>
    let s1 := { s with latestPlcData := some data }
    let s2 := handleProcessLogic pid tid now s1 data
    if hasImportantChange s2.lastSavedData data then
      { s2 with
          plcQueue := pushToPlcQueue s2.plcQueue (mkTelemetryRec s2.currentProcess data) now
          lastSavedData := some data }
    else s2

/-- Function `handleDetectResult(defectData)`: drop when `!currentProcess`; drop
when `latestPlcData && latestPlcData.machineRunning !== 1`; otherwise
append the event to `defectQueue`. -/
def handleDetectResult (s : ServerState) (d : DefectEvent) : ServerState :=
  if s.currentProcess.isNone then s
  else if (match s.latestPlcData with
           | some l => l.machineRunning != 1
           | none => false) then s
  else { s with defectQueue := s.defectQueue ++ [d] }

/-- The defect record built by the defect-processor interval:
`lengthAtDetection: latestPlcData?.fabricLength || null` — note that a
fabric length of `0` is falsy in JS and therefore becomes `null`. -/
def mkDefectRecord (cp : Process) (latest : Option PlcData) (d : DefectEvent)
    (now : Nat) : DefectRecord :=
  { processId := cp.processId
    textileId := cp.textileId
    count := d.count
    defectId := d.defectId
    confidence := d.confidence
    lengthAtDetection :=
      match latest with
      | some l => if l.fabricLength = 0 then none else some l.fabricLength
      | none => none
    timestamp := now }

/-- One tick of the defect-processor interval in `startPlcPolling`:
return if `isProcessingDefect || defectQueue.length === 0`; shift the
queue; re-validate the gate (`!currentProcess || (latestPlcData &&
latestPlcData.machineRunning !== 1)`) and return early on failure;
otherwise run `sendDefectTrigger()` (its boolean result is ignored) and
insert the defect record.  The second component is the emitted hardware /
store event trace. -/
def defectTick (env : Env) (ok : Nat → Bool) (pfx : Nat → List PlcEvent)
    (now : Nat) (s : ServerState) : ServerState × List PlcEvent :=
  if s.isProcessingDefect then (s, [])
  else
    match s.defectQueue with
    | [] => (s, [])
    | d :: rest =>
      let s1 := { s with defectQueue := rest }
      let gateFails : Bool :=
        s1.currentProcess.isNone ||
          (match s1.latestPlcData with
           | some l => l.machineRunning != 1
           | none => false)
      if gateFails then (s1, [])
      else
        match s1.currentProcess with
        | some cp =>
          let run := sendDefectTriggerRun env ok pfx 1 MAX_RETRY_ATTEMPTS
          (s1, run.2 ++ [.insert (mkDefectRecord cp s1.latestPlcData d now)])
        | none => (s1, [])

/-- One tick of the database-writer interval in `startPlcPolling`:
`popFromPlcQueue()`; if an entry was popped, attempt one
`insertPlcData(record.data)` whose success is `storeOk`.  The popped
entry is never re-enqueued, whatever the outcome.  The second component
records whether a write was attempted and its result. -/
def dbWriterTick (q : List (PlcQueueEntry α)) (storeOk : Bool) :
    List (PlcQueueEntry α) × Option Bool :=
  match popFromPlcQueue q with
  | (none, q') => (q', none)
  | (some _, q') => (q', some storeOk)

/-! ## Frame sequences fed to the process tracker -/

/-- One poll input for the process-logic run: the fresh identifiers
drawn at that tick and the frame. -/
structure FrameIn where
  pid : Nat
  tid : Nat
  now : Nat
  data : PlcData
deriving Repr, DecidableEq

/-- Runs `handleProcessLogic` over a sequence of frames, collecting every
emitted summary. -/
def runProcessLogic (s : ServerState) : List FrameIn → ServerState × List SummaryRec
  | [] => (s, [])
  | f :: fs =>
    let p1 := handleProcessLogicE f.pid f.tid f.now s f.data
    let p2 := runProcessLogic p1.1 fs
    (p2.1, p1.2 ++ p2.2)

/-- Number of 1→0 edges in a flag sequence, `prev` being the flag value
observed before the sequence. -/
def edges10 : Nat → List Nat → Nat
  | _, [] => 0
  | prev, f :: fs => (if prev = 1 ∧ f = 0 then 1 else 0) + edges10 f fs

/-- The last flag of a sequence (`prev` when the sequence is empty). -/
def lastFlag : Nat → List Nat → Nat
  | prev, [] => prev
  | _, f :: fs => lastFlag f fs

/-! ## withPlcLock: the promise-chain mutex of PlcHelper.js

`withPlcLock(fn)` chains every submitted operation onto one module-level
promise: `const run = plcLock.then(() => fn()); plcLock = run.catch(() => {})`.
Hence the body of the `j`-th submitted operation can only start after the
`(j-1)`-st settled, and by induction after all earlier ones settled.

We model an execution as a small-step schedule over the submitted
transactions.  `jobs` lists, in submission order, the number of atomic
hardware steps of each transaction.  A trace entry `(j, k)` records that
step `k` of transaction `j` ran.  The scheduler is free to pick any
transaction at each step — the only constraint, `hprev`, is the promise
chain: transaction `j` may run a step only when every earlier-submitted
transaction has already completed all of its steps. -/

/-- Number of steps of transaction `j` already present in trace `t`. -/
def countJob (t : List (Nat × Nat)) (j : Nat) : Nat :=
  (t.filter (fun e => e.1 == j)).length

/-- Executions of `withPlcLock`-guarded transactions: the trace grows one
step at a time; a step of transaction `j` requires (`hrun`) that `j` is not
yet finished and (`hprev`) that every transaction submitted before `j` has
finished — the promise-chain discipline. -/
inductive LockExec (jobs : List Nat) : List (Nat × Nat) → Prop where
  | nil : LockExec jobs []
  | step (t : List (Nat × Nat)) (j : Nat)
      (hj : j < jobs.length)
      (hrun : countJob t j < jobs.getD j 0)
      (hprev : ∀ i, i < j → countJob t i = jobs.getD i 0)
      (hexec : LockExec jobs t) :
      LockExec jobs (t ++ [(j, countJob t j)])

/-! ## Concrete fixtures used by witnesses and counterexamples -/

/-- A concrete open process. -/
def cexProcess : Process :=
  { processId := 1, textileId := 11, startTime := 0
    startProduction := 100, startLength := 40 }

/-- A concrete telemetry frame with the machine running. -/
def cexFrame : PlcData :=
  { machineStatusCode := 1, machineStatus := "RUNNING", totalProduction := 150
    alarmCode := 0, fabricLength := 60, processStart := 1, machineRunning := 1
    defectRegister := 0, timestamp := 3 }

/-- A concrete defect event. -/
def cexEvent : DefectEvent :=
  { defect := true, count := 2, defectId := 7, confidence := 90, timestamp := 5 }

/-- The state reached when a process has been opened (e.g. through
`POST /test/process-start`) before any successful poll: `currentProcess`
is set while `latestPlcData` is still `null`. -/
def cexStateNoFrame : ServerState :=
  { initialState with currentProcess := some cexProcess }

/-- A concrete telemetry queue entry. -/
def cexPlcEntry : PlcQueueEntry TelemetryRec :=
  { typeTag := "telemetry"
    data := { processId := some 1, textileId := some 11, data := cexFrame }
    timestamp := 9 }

/-- Batch of 101 identical telemetry pushes (one more than the queue capacity). -/
def cexTelemetryBatch : List (TelemetryRec × Nat) :=
  List.replicate 101 ({ processId := some 1, textileId := some 11, data := cexFrame }, 9)

/-- Batch of 101 identical summary pushes (one more than the queue capacity). -/
def cexSummaryBatch : List (Option String × SummaryRec × Nat) :=
  List.replicate 101 (some "process_summary", mkSummary cexProcess cexFrame 9, 9)

/-- A hardware oracle whose first read attempt throws and whose second
succeeds with a concrete register block. -/
def cexHw : Nat → Option (List Nat) :=
  fun a => if a = 2 then some [1, 450, 0, 77, 0, 0, 1, 0, 0, 0, 1, 0] else none

/-- A write oracle whose first attempt throws and whose second succeeds. -/
def cexOk : Nat → Bool := fun a => a == 2

/-- A partial trace for failing write attempts: the assert went through
before the exception. -/
def cexPfx : Nat → List PlcEvent := fun _ => [.write 111 1]

/-- A write oracle that succeeds on the first attempt. -/
def cexOkFirst : Nat → Bool := fun _ => true

/-- A state with an open process, a running latest frame, and one queued
defect event — the defect worker's happy path. -/
def cexStateReady : ServerState :=
  { initialState with
    currentProcess := some cexProcess
    latestPlcData := some cexFrame
    defectQueue := [cexEvent] }

/-- A state whose `lastSavedData` is `cexFrame`. -/
def cexStateSaved : ServerState :=
  { initialState with lastSavedData := some cexFrame }

/-- Variant of `cexFrame` with a different production counter (an important change). -/
def cexFrame2 : PlcData := { cexFrame with totalProduction := 999 }

/-- A concrete poll sequence whose `processStart` flags are 1,1,0,1,0 —
two 1→0 edges. -/
def cexFrames : List FrameIn :=
  [ { pid := 1, tid := 1, now := 1, data := { cexFrame with processStart := 1 } }
  , { pid := 2, tid := 2, now := 2, data := { cexFrame with processStart := 1 } }
  , { pid := 3, tid := 3, now := 3, data := { cexFrame with processStart := 0 } }
  , { pid := 4, tid := 4, now := 4, data := { cexFrame with processStart := 1 } }
  , { pid := 5, tid := 5, now := 5, data := { cexFrame with processStart := 0 } } ]

/-- Modelled from the spec's words, for comparison with
`handleDetectResult` (claim C2): "an incoming DefectEvent is accepted
only if a Process is Active and the most recent TelemetryFrame's
machineRunningFlag == 1".  When no frame has been polled there is no
most recent frame whose flag equals 1, so this gate rejects. -/
def specGateC2 (s : ServerState) : Bool :=
  s.currentProcess.isSome &&
    (match s.latestPlcData with
     | some l => l.machineRunning == 1
     | none => false)

/-- The admission gate as `handleDetectResult` implements it: the
machine-running half is only checked when a latest frame exists
(`latestPlcData && latestPlcData.machineRunning !== 1`). -/
def codeGate (s : ServerState) : Bool :=
  s.currentProcess.isSome &&
    !(match s.latestPlcData with
      | some l => l.machineRunning != 1
      | none => false)


/-! # Theorems -/

/-! ## Bounded-queue lemmas (DataQueue.js) -/

theorem pushBounded_length_le (cap : Nat) (hcap : 0 < cap) (q : List α) (x : α)
    (h : q.length ≤ cap) : (pushBounded cap q x).length ≤ cap := by
  unfold pushBounded
  split
  · rename_i hle
    simp only [List.length_append, List.length_tail, List.length_singleton]
    omega
  · rename_i hlt
    simp only [List.length_append, List.length_singleton]
    omega

theorem pushBounded_foldl_eq_dropLast (cap : Nat) (hcap : 0 < cap)
    (xs : List α) : xs.foldl (pushBounded cap) [] = xs.drop (xs.length - cap) := by
  induction xs using List.reverseRecOn with
  | nil => simp
  | append_singleton xs x ih =>
    rw [List.foldl_append, List.foldl_cons, List.foldl_nil, ih]
    unfold pushBounded
    by_cases hlen : cap ≤ xs.length
    · have hdroplen : (xs.drop (xs.length - cap)).length = cap := by
        rw [List.length_drop]; omega
      rw [if_pos (by omega : cap ≤ (xs.drop (xs.length - cap)).length)]
      rw [List.tail_drop]
      have h1 : (xs ++ [x]).length - cap = xs.length - cap + 1 := by
        simp; omega
      rw [h1, List.drop_append_of_le_length (by omega)]
    · have h0 : xs.length - cap = 0 := by omega
      rw [h0, List.drop_zero]
      rw [if_neg (by omega : ¬ cap ≤ xs.length)]
      have h1 : (xs ++ [x]).length - cap = 0 := by simp; omega
      rw [h1, List.drop_zero]

theorem pushBounded_foldl_length (cap : Nat) (hcap : 0 < cap) (xs : List α) :
    (xs.foldl (pushBounded cap) []).length ≤ cap := by
  rw [pushBounded_foldl_eq_dropLast cap hcap]
  rw [List.length_drop]
  omega

/-! ## Retry-loop lemmas (PlcHelper.js) -/

theorem retryLoop_none_iff (oracle : Nat → Option α) (a r : Nat) :
    retryLoop oracle a r = none ↔ ∀ k, a ≤ k → k < a + r → oracle k = none := by
  induction r generalizing a with
  | zero => simp [retryLoop]; intro k h1 h2; omega
  | succ n ih =>
    unfold retryLoop
    cases h : oracle a with
    | some v =>
      constructor
      · intro h0; exact absurd h0 (by simp)
      · intro hall; exact absurd (hall a le_rfl (by omega)) (by simp [h])
    | none =>
      rw [ih (a + 1)]
      constructor
      · intro hall k hk1 hk2
        rcases Nat.eq_or_lt_of_le hk1 with rfl | hlt
        · exact h
        · exact hall k hlt (by omega)
      · intro hall k hk1 hk2
        exact hall k (by omega) (by omega)

theorem retryLoop_first_success (oracle : Nat → Option α) (a r j : Nat) (v : α)
    (hj1 : a ≤ j) (hj2 : j < a + r) (hv : oracle j = some v)
    (hfail : ∀ i, a ≤ i → i < j → oracle i = none) :
    retryLoop oracle a r = some v ∧ retryCalls oracle a r = j + 1 - a := by
  induction r generalizing a with
  | zero => omega
  | succ n ih =>
    rcases Nat.eq_or_lt_of_le hj1 with rfl | hlt
    · unfold retryLoop retryCalls
      simp only [hv]
      exact ⟨trivial, by omega⟩
    · have h0 := hfail a le_rfl hlt
      unfold retryLoop retryCalls
      simp only [h0]
      have := ih (a + 1) (by omega) (by omega)
        (fun i h1 h2 => hfail i (by omega) h2)
      exact ⟨this.1, by rw [this.2]; omega⟩

theorem retryCalls_le (oracle : Nat → Option α) (a r : Nat) :
    retryCalls oracle a r ≤ r := by
  induction r generalizing a with
  | zero => simp [retryCalls]
  | succ n ih =>
    unfold retryCalls
    split
    · omega
    · have := ih (a + 1); omega

theorem sendDefectTriggerRun_fst (env : Env) (ok : Nat → Bool)
    (pt : Nat → List PlcEvent) (a r : Nat) :
    (sendDefectTriggerRun env ok pt a r).1 =
      (retryLoop (fun k => if ok k then some () else none) a r).isSome := by
  induction r generalizing a with
  | zero => simp [sendDefectTriggerRun, retryLoop]
  | succ n ih =>
    unfold sendDefectTriggerRun retryLoop
    by_cases h : ok a
    · simp [h]
    · simp [h, ih (a + 1)]


/-! ## Claim theorems -/

/-- Claim C4: every bounded queue of capacity `K` (the two `DataQueue.js`
queues use `MAX_QUEUE_SIZE = 100`) evicts the oldest entry before pushing
when full, so after `M > K` pushes with no pops the queue holds exactly
the last `K` pushed entries in push order, and its length never exceeds
`K`.  The last four conjuncts instantiate this for the source functions
`pushToPlcQueue` and `pushToDbQueue` at capacity 100. -/
theorem dataQueue_evict_oldest_lastK (K : Nat) (β : Type) (hK : 0 < K)
    (tels : List (TelemetryRec × Nat))
    (sums : List (Option String × SummaryRec × Nat))
    (hM : MAX_QUEUE_SIZE < tels.length) (hM2 : MAX_QUEUE_SIZE < sums.length) :
    (∀ xs : List β, K < xs.length →
        xs.foldl (pushBounded K) [] = xs.drop (xs.length - K)) ∧
    (∀ (xs : List β) (p : Nat),
        ((xs.take p).foldl (pushBounded K) []).length ≤ K) ∧
    (tels.foldl (fun q it => pushToPlcQueue q it.1 it.2) [] =
      (tels.map plcEntryOf).drop (tels.length - MAX_QUEUE_SIZE)) ∧
    (∀ p : Nat,
        ((tels.take p).foldl (fun q it => pushToPlcQueue q it.1 it.2) []).length ≤
          MAX_QUEUE_SIZE) ∧
    (sums.foldl (fun q it => pushToDbQueue q it.1 it.2.1 it.2.2) [] =
      (sums.map dbEntryOf).drop (sums.length - MAX_QUEUE_SIZE)) ∧
    (∀ p : Nat,
        ((sums.take p).foldl (fun q it => pushToDbQueue q it.1 it.2.1 it.2.2) []).length ≤
          MAX_QUEUE_SIZE) := by
  have hcap : (0 : Nat) < MAX_QUEUE_SIZE := by decide
  refine ⟨fun xs _ => pushBounded_foldl_eq_dropLast K hK xs,
    fun xs p => pushBounded_foldl_length K hK _, ?_, ?_, ?_, ?_⟩
  · have h := pushBounded_foldl_eq_dropLast (α := PlcQueueEntry TelemetryRec)
      MAX_QUEUE_SIZE hcap (tels.map plcEntryOf)
    rw [List.foldl_map] at h
    rw [List.length_map] at h
    exact h
  · intro p
    have h := pushBounded_foldl_length (α := PlcQueueEntry TelemetryRec)
      MAX_QUEUE_SIZE hcap ((tels.take p).map plcEntryOf)
    rw [List.foldl_map] at h
    exact h
  · have h := pushBounded_foldl_eq_dropLast (α := DbQueueEntry SummaryRec)
      MAX_QUEUE_SIZE hcap (sums.map dbEntryOf)
    rw [List.foldl_map] at h
    rw [List.length_map] at h
    exact h
  · intro p
    have h := pushBounded_foldl_length (α := DbQueueEntry SummaryRec)
      MAX_QUEUE_SIZE hcap ((sums.take p).map dbEntryOf)
    rw [List.foldl_map] at h
    exact h

/-- Witness for C4 at a concrete input: 101 pushes through the source
`pushToPlcQueue` leave exactly the last 100 wrapped entries. -/
theorem dataQueue_evict_oldest_lastK_witness :
    cexTelemetryBatch.foldl (fun q it => pushToPlcQueue q it.1 it.2) [] =
      (cexTelemetryBatch.map plcEntryOf).drop (cexTelemetryBatch.length - MAX_QUEUE_SIZE) :=
  (dataQueue_evict_oldest_lastK 2 Nat (by decide) cexTelemetryBatch cexSummaryBatch
    (by simp [cexTelemetryBatch, MAX_QUEUE_SIZE])
    (by simp [cexSummaryBatch, MAX_QUEUE_SIZE])).2.2.1

/-- Claim C5: `getPlcData` and `sendDefectTrigger` make at most
`MAX_RETRY_ATTEMPTS = 3` attempts, return on the first attempt that
succeeds (making exactly that many attempts), and return the unavailable
result (`null` / `false`) exactly when all 3 attempts fail.  Both are
total functions of their attempt oracles — no exception escapes them. -/
theorem retriedIO_budget (env : Env) (hw : Nat → Option (List Nat))
    (ok : Nat → Bool) (pfx : Nat → List PlcEvent) (now : Nat) :
    getPlcDataCalls hw ≤ MAX_RETRY_ATTEMPTS ∧
    sendDefectTriggerCalls ok ≤ MAX_RETRY_ATTEMPTS ∧
    (getPlcData hw now = none ↔
      ∀ k, 1 ≤ k → k ≤ MAX_RETRY_ATTEMPTS → hw k = none) ∧
    (∀ j regs, 1 ≤ j → j ≤ MAX_RETRY_ATTEMPTS → hw j = some regs →
        (∀ i, 1 ≤ i → i < j → hw i = none) →
        getPlcData hw now = some (mkPlcData regs now) ∧ getPlcDataCalls hw = j) ∧
    (sendDefectTrigger env ok pfx = false ↔
      ∀ k, 1 ≤ k → k ≤ MAX_RETRY_ATTEMPTS → ok k = false) ∧
    (∀ j, 1 ≤ j → j ≤ MAX_RETRY_ATTEMPTS → ok j = true →
        (∀ i, 1 ≤ i → i < j → ok i = false) →
        sendDefectTrigger env ok pfx = true ∧ sendDefectTriggerCalls ok = j) := by
  refine ⟨retryCalls_le hw 1 MAX_RETRY_ATTEMPTS,
    retryCalls_le _ 1 MAX_RETRY_ATTEMPTS, ?_, ?_, ?_, ?_⟩
  · rw [getPlcData, Option.map_eq_none', retryLoop_none_iff]
    constructor
    · intro h k h1 h2; exact h k h1 (by omega)
    · intro h k h1 h2; exact h k h1 (by omega)
  · intro j regs h1 h2 hj hfail
    have := retryLoop_first_success hw 1 MAX_RETRY_ATTEMPTS j regs h1 (by omega) hj hfail
    constructor
    · rw [getPlcData, this.1]; rfl
    · rw [getPlcDataCalls, this.2]; omega
  · rw [sendDefectTrigger, sendDefectTriggerRun_fst]
    have key : (retryLoop (fun k => if ok k then some () else none) 1
        MAX_RETRY_ATTEMPTS = none) ↔
        ∀ k, 1 ≤ k → k ≤ MAX_RETRY_ATTEMPTS → ok k = false := by
      rw [retryLoop_none_iff]
      constructor
      · intro h k h1 h2
        have hk2 := h k h1 (by omega)
        by_cases hk : ok k
        · simp [hk] at hk2
        · simpa using hk
      · intro h k h1 h2
        simp [h k h1 (by omega)]
    rw [← key]
    cases hx : retryLoop (fun k => if ok k then some () else none) 1
        MAX_RETRY_ATTEMPTS <;> simp [hx]
  · intro j h1 h2 hj hfail
    have := retryLoop_first_success (fun k => if ok k then some () else none)
      1 MAX_RETRY_ATTEMPTS j () h1 (by omega) (by simp [hj])
      (fun i hi1 hi2 => by simp [hfail i hi1 hi2])
    constructor
    · rw [sendDefectTrigger, sendDefectTriggerRun_fst, this.1]; rfl
    · rw [sendDefectTriggerCalls, this.2]; omega

/-- Witness for C5 at a concrete oracle that fails once then
succeeds: the result is the frame built from the second attempt's
registers and exactly two attempts are made; likewise for the write. -/
theorem retriedIO_budget_witness :
    getPlcData cexHw 3 = some (mkPlcData [1, 450, 0, 77, 0, 0, 1, 0, 0, 0, 1, 0] 3) ∧
    getPlcDataCalls cexHw = 2 ∧
    sendDefectTrigger [] cexOk cexPfx = true ∧
    sendDefectTriggerCalls cexOk = 2 := by
  have h := retriedIO_budget [] cexHw cexOk cexPfx 3
  have h4 := h.2.2.2.1 2 [1, 450, 0, 77, 0, 0, 1, 0, 0, 0, 1, 0]
    (by decide) (by decide) rfl
    (fun i hi1 hi2 => by
      have hi : i = 1 := by omega
      subst hi; rfl)
  have h6 := h.2.2.2.2.2 2 (by decide) (by decide) rfl
    (fun i hi1 hi2 => by
      have hi : i = 1 := by omega
      subst hi; rfl)
  exact ⟨h4.1, h4.2, h6.1, h6.2⟩

/-- Claim C6: when `getPlcData()` returns `null`, the `readLoop` tick is a
no-op: the whole module state — `latestPlcData`, `lastSavedData`,
`lastProcessStart`, `currentProcess` and both queues — is unchanged and
nothing is enqueued. -/
theorem readLoop_unavailable_noop (pid tid now : Nat) (s : ServerState) :
    readLoopStep pid tid now s none = s := rfl

/-- Claim C2, counterexample: in the reachable state where a process is open
(set e.g. through `POST /test/process-start`) while no frame has yet been
polled, the claimed gate — open process AND latest frame's
`machineRunning == 1` — rejects, because there is no latest frame at all;
yet `handleDetectResult` accepts the event and enqueues it. -/
theorem handleDetectResult_gate_counterexample :
    specGateC2 cexStateNoFrame = false ∧
    handleDetectResult cexStateNoFrame cexEvent =
      { cexStateNoFrame with defectQueue := [cexEvent] } := by
  exact ⟨rfl, rfl⟩

/-- Claim C2 as amended: `handleDetectResult` accepts (appends to the
defect queue) exactly when a process is open and, **if a latest frame
exists**, its `machineRunning` equals 1; with no polled frame the
running check is skipped.  An event arriving with no open process leaves
the state unchanged, and with an empty defect queue the worker tick
performs no pulse write and no insert. -/
theorem handleDetectResult_gate_amended (s : ServerState) (d : DefectEvent) :
    (handleDetectResult s d =
      if codeGate s then { s with defectQueue := s.defectQueue ++ [d] } else s) ∧
    (s.currentProcess = none → handleDetectResult s d = s) ∧
    (∀ (env : Env) (ok : Nat → Bool) (pfx : Nat → List PlcEvent) (now : Nat),
        s.defectQueue = [] → defectTick env ok pfx now s = (s, [])) := by
  refine ⟨?_, ?_, ?_⟩
  · unfold handleDetectResult codeGate
    cases hcp : s.currentProcess <;> cases hl : s.latestPlcData <;> simp
    all_goals (rename_i l; by_cases hr : l.machineRunning = 1 <;> simp [hr])
  · intro h
    unfold handleDetectResult
    simp [h]
  · intro env ok pfx now h
    unfold defectTick
    rw [h]
    cases s.isProcessingDefect <;> simp

/-- Witness for C2 (amended) at concrete inputs: with no open process
the event is dropped with no state change; with an empty queue the worker
tick is silent. -/
theorem handleDetectResult_gate_amended_witness :
    handleDetectResult initialState cexEvent = initialState ∧
    defectTick [] cexOk cexPfx 0 initialState = (initialState, []) := by
  have h := handleDetectResult_gate_amended initialState cexEvent
  exact ⟨h.2.1 rfl, h.2.2 [] cexOk cexPfx 0 rfl⟩

/-- Claim C10: when a process is open but no telemetry frame has been
polled yet, the machine-running half of the gate is skipped rather than
failed: `handleDetectResult` accepts the event, and the worker's
re-validation also passes, so the event is processed — pulse write
followed by the defect-record insert. -/
theorem defectGate_skipped_when_no_frame (s : ServerState) (d : DefectEvent)
    (p : Process) (hcp : s.currentProcess = some p)
    (hl : s.latestPlcData = none) :
    handleDetectResult s d = { s with defectQueue := s.defectQueue ++ [d] } ∧
    (∀ (env : Env) (ok : Nat → Bool) (pfx : Nat → List PlcEvent) (now : Nat)
        (rest : List DefectEvent),
        s.isProcessingDefect = false → s.defectQueue = d :: rest →
        defectTick env ok pfx now s =
          ({ s with defectQueue := rest },
            (sendDefectTriggerRun env ok pfx 1 MAX_RETRY_ATTEMPTS).2 ++
              [PlcEvent.insert (mkDefectRecord p none d now)])) := by
  constructor
  · unfold handleDetectResult
    simp [hcp, hl]
  · intro env ok pfx now rest hbusy hq
    unfold defectTick
    rw [hq, hbusy]
    simp [hcp, hl]

/-- Witness for C10 at a concrete state: the event enters the queue
and the worker tick emits the pulse attempt trace followed by the insert
of the record with `lengthAtDetection = null`. -/
theorem defectGate_skipped_when_no_frame_witness :
    handleDetectResult cexStateNoFrame cexEvent =
      { cexStateNoFrame with defectQueue := [cexEvent] } ∧
    defectTick [] cexOkFirst cexPfx 5
        { cexStateNoFrame with defectQueue := [cexEvent] } =
      (cexStateNoFrame,
        (sendDefectTriggerRun [] cexOkFirst cexPfx 1 MAX_RETRY_ATTEMPTS).2 ++
          [PlcEvent.insert (mkDefectRecord cexProcess none cexEvent 5)]) := by
  refine ⟨(defectGate_skipped_when_no_frame cexStateNoFrame cexEvent cexProcess
    rfl rfl).1, ?_⟩
  exact (defectGate_skipped_when_no_frame
    { cexStateNoFrame with defectQueue := [cexEvent] } cexEvent cexProcess
    rfl rfl).2 [] cexOkFirst cexPfx 5 [] rfl rfl

/-- Claim C7, counterexample: the claimed bounded-retry-before-drop policy
does not exist in the code.  On a failing store write the DB-writer tick
drops the popped entry immediately: after one failing tick on the
single-entry queue the entry is gone (no re-enqueue, no retry); the
drained telemetry-queue entries do not even carry an attempt counter. -/
theorem dbWriter_drops_failed_entry_counterexample :
    dbWriterTick [cexPlcEntry] false = ([], some false) ∧
    cexPlcEntry ∉ (dbWriterTick [cexPlcEntry] false).1 := by
  refine ⟨rfl, ?_⟩
  simp [dbWriterTick, popFromPlcQueue]

/-- Claim C7 as amended: the DB-writer tick drains at most one entry (the
head) per tick; on a failing write the entry is dropped immediately with
zero retries (`attempts` on DB-queue entries is initialised to 0 and
never consulted); a failing write never blocks subsequent ticks — the
next tick simply operates on the rest of the queue. -/
theorem dbWriter_one_per_tick_no_retry (α : Type) (q : List (PlcQueueEntry α))
    (ok : Bool) :
    ((dbWriterTick q ok).1 = q.drop 1) ∧
    (q = [] → dbWriterTick q ok = ([], none)) ∧
    (∀ (e : PlcQueueEntry α) (rest : List (PlcQueueEntry α)),
        q = e :: rest → dbWriterTick q ok = (rest, some ok)) := by
  refine ⟨?_, ?_, ?_⟩
  · cases q <;> rfl
  · intro h; subst h; rfl
  · intro e rest h; subst h; rfl

/-- Witness for C7 (amended) at a concrete queue: a failing tick
yields the emptied queue and the failure result. -/
theorem dbWriter_one_per_tick_no_retry_witness :
    dbWriterTick [cexPlcEntry] false = ([], some false) ∧
    dbWriterTick ([] : List (PlcQueueEntry TelemetryRec)) false = ([], none) :=
  ⟨(dbWriter_one_per_tick_no_retry TelemetryRec [cexPlcEntry] false).2.2
      cexPlcEntry [] rfl,
    (dbWriter_one_per_tick_no_retry TelemetryRec [] false).2.1 rfl⟩

/-- Claim C8, counterexample: the pulse hold is not configurable — it is the
literal `delay(2000)`.  Whatever the environment (even one attempting to
set a hold value), the hold is 2000 ms and the successful pulse trace is
`write 1, wait 2000, write 0`. -/
theorem pulse_hold_hardwired_counterexample :
    DEFECT_HOLD_MS [] = 2000 ∧
    DEFECT_HOLD_MS [("DEFECT_HOLD_MS", 500)] = 2000 ∧
    pulseEvents [("DEFECT_HOLD_MS", 500)] =
      [PlcEvent.write 111 1, PlcEvent.wait 2000, PlcEvent.write 111 0] :=
  ⟨rfl, rfl, rfl⟩

/-- Claim C8 as amended: for every defect event that passes the worker's
gate, when the hardware write succeeds (first attempt) the emitted event
sequence is exactly: write 1 to register 111, wait the fixed hold of
2000 ms (a hardwired literal, not configuration), write 0 to register
111, and only then the defect-record build and persistence insert. -/
theorem defectWorker_pulse_then_insert (env : Env) (ok : Nat → Bool)
    (pfx : Nat → List PlcEvent) (now : Nat) (s : ServerState) (cp : Process)
    (d : DefectEvent) (rest : List DefectEvent)
    (hcp : s.currentProcess = some cp) (hq : s.defectQueue = d :: rest)
    (hbusy : s.isProcessingDefect = false)
    (hrun : ∀ l, s.latestPlcData = some l → l.machineRunning = 1)
    (hok : ok 1 = true) :
    (defectTick env ok pfx now s).2 =
      [PlcEvent.write 111 1, PlcEvent.wait (DEFECT_HOLD_MS env),
        PlcEvent.write 111 0,
        PlcEvent.insert (mkDefectRecord cp s.latestPlcData d now)] ∧
    DEFECT_HOLD_MS env = 2000 := by
  refine ⟨?_, rfl⟩
  unfold defectTick
  rw [hq, hbusy]
  cases hl : s.latestPlcData with
  | none =>
    simp [hcp, hl, MAX_RETRY_ATTEMPTS, sendDefectTriggerRun, hok, pulseEvents]
  | some l =>
    have hr := hrun l hl
    simp [hcp, hl, hr, MAX_RETRY_ATTEMPTS, sendDefectTriggerRun, hok, pulseEvents]

/-- Witness for C8 (amended) at a concrete ready state with a
first-attempt hardware success. -/
theorem defectWorker_pulse_then_insert_witness :
    (defectTick [] cexOkFirst cexPfx 5 cexStateReady).2 =
      [PlcEvent.write 111 1, PlcEvent.wait (DEFECT_HOLD_MS []),
        PlcEvent.write 111 0,
        PlcEvent.insert (mkDefectRecord cexProcess (some cexFrame) cexEvent 5)] ∧
    DEFECT_HOLD_MS [] = 2000 :=
  defectWorker_pulse_then_insert [] cexOkFirst cexPfx 5 cexStateReady
    cexProcess cexEvent [] rfl rfl rfl
    (fun l hl => by cases hl; rfl) rfl

/-! ## PlcRoutes.js helper lemmas -/

theorem handleProcessLogicE_preserves (pid tid now : Nat) (s : ServerState)
    (data : PlcData) :
    (handleProcessLogicE pid tid now s data).1.lastSavedData = s.lastSavedData ∧
    (handleProcessLogicE pid tid now s data).1.latestPlcData = s.latestPlcData ∧
    (handleProcessLogicE pid tid now s data).1.plcQueue = s.plcQueue ∧
    (handleProcessLogicE pid tid now s data).1.defectQueue = s.defectQueue ∧
    (handleProcessLogicE pid tid now s data).1.isProcessingDefect = s.isProcessingDefect := by
  unfold handleProcessLogicE
  dsimp only
  split <;> split <;> try split
  all_goals exact ⟨rfl, rfl, rfl, rfl, rfl⟩

theorem hasImportantChange_false_iff (prev data : PlcData) :
    hasImportantChange (some prev) data = false ↔ sameImportantFields data prev := by
  simp [hasImportantChange, sameImportantFields, bne]
  tauto

theorem hasImportantChange_false_of_sameFields (last data data2 : PlcData)
    (h1 : hasImportantChange (some last) data = false)
    (h7 : sameImportantFields data2 data) :
    hasImportantChange (some last) data2 = false := by
  rw [hasImportantChange_false_iff] at h1 ⊢
  obtain ⟨a1, a2, a3, a4, a5, a6, a7⟩ := h1
  obtain ⟨b1, b2, b3, b4, b5, b6, b7⟩ := h7
  exact ⟨b1.trans a1, b2.trans a2, b3.trans a3, b4.trans a4,
    b5.trans a5, b6.trans a6, b7.trans a7⟩

theorem readLoopStep_noChange (pid tid now : Nat) (s : ServerState)
    (data : PlcData)
    (h : hasImportantChange s.lastSavedData data = false) :
    readLoopStep pid tid now s (some data) =
      handleProcessLogic pid tid now { s with latestPlcData := some data } data := by
  have hpres : (handleProcessLogic pid tid now
      { s with latestPlcData := some data } data).lastSavedData =
      s.lastSavedData :=
    (handleProcessLogicE_preserves pid tid now
      { s with latestPlcData := some data } data).1
  unfold readLoopStep
  dsimp only
  rw [handleProcessLogic] at hpres ⊢
  rw [hpres, h]
  simp

theorem readLoopStep_lastSaved_cases (pid tid now : Nat) (s : ServerState)
    (data : PlcData) :
    (readLoopStep pid tid now s (some data)).lastSavedData = some data ∨
    ((readLoopStep pid tid now s (some data)).lastSavedData = s.lastSavedData ∧
      hasImportantChange s.lastSavedData data = false) := by
  have hpres : (handleProcessLogic pid tid now
      { s with latestPlcData := some data } data).lastSavedData =
      s.lastSavedData :=
    (handleProcessLogicE_preserves pid tid now
      { s with latestPlcData := some data } data).1
  unfold readLoopStep
  dsimp only
  rw [handleProcessLogic] at hpres ⊢
  rw [hpres]
  cases h : hasImportantChange s.lastSavedData data
  · right
    simpa [hpres] using ⟨rfl, rfl⟩
  · left
    simp

/-- Claim C3: on a successful poll, a telemetry entry is enqueued iff at
least one of the seven compared fields of the new frame differs from the
last frame actually enqueued for persistence (`lastSavedData`, not the
last polled frame); a frame with no such difference leaves the queue and
`lastSavedData` untouched, a frame with a difference performs exactly one
push and updates `lastSavedData`; consequently a second consecutive frame
identical on the seven fields never pushes a second entry. -/
theorem telemetry_enqueued_iff_changed (pid tid now pid2 tid2 now2 : Nat)
    (s : ServerState) (data data2 : PlcData) :
    (∀ prev, s.lastSavedData = some prev →
      (hasImportantChange (some prev) data = true ↔
        ¬ sameImportantFields data prev)) ∧
    (∀ prev, s.lastSavedData = some prev →
      hasImportantChange (some prev) data = false →
      readLoopStep pid tid now s (some data) =
        handleProcessLogic pid tid now
          { s with latestPlcData := some data } data) ∧
    (∀ prev, s.lastSavedData = some prev →
      hasImportantChange (some prev) data = true →
      readLoopStep pid tid now s (some data) =
        (let s2 := handleProcessLogic pid tid now
            { s with latestPlcData := some data } data
         { s2 with
            plcQueue := pushToPlcQueue s2.plcQueue
              (mkTelemetryRec s2.currentProcess data) now
            lastSavedData := some data })) ∧
    (sameImportantFields data2 data →
      (readLoopStep pid2 tid2 now2 (readLoopStep pid tid now s (some data))
          (some data2)).plcQueue =
        (readLoopStep pid tid now s (some data)).plcQueue) := by
  refine ⟨?_, ?_, ?_, ?_⟩
  · intro prev _
    rw [← hasImportantChange_false_iff]
    cases h : hasImportantChange (some prev) data <;> simp
  · intro prev hprev hfalse
    exact readLoopStep_noChange pid tid now s data (hprev ▸ hfalse)
  · intro prev hprev htrue
    have hpres : (handleProcessLogic pid tid now
        { s with latestPlcData := some data } data).lastSavedData =
        s.lastSavedData :=
      (handleProcessLogicE_preserves pid tid now
        { s with latestPlcData := some data } data).1
    unfold readLoopStep
    dsimp only
    rw [handleProcessLogic] at hpres ⊢
    rw [hpres, hprev, htrue]
    simp
  · intro h7
    have hch2 : hasImportantChange
        (readLoopStep pid tid now s (some data)).lastSavedData data2 = false := by
      rcases readLoopStep_lastSaved_cases pid tid now s data with hA | ⟨hA, hch⟩
      · rw [hA, hasImportantChange_false_iff]
        exact h7
      · rw [hA]
        cases hsv : s.lastSavedData with
        | none => rw [hsv] at hch; simp [hasImportantChange] at hch
        | some prev =>
          rw [hsv] at hch
          exact hasImportantChange_false_of_sameFields prev data data2 hch h7
    have h2 := readLoopStep_noChange pid2 tid2 now2
      (readLoopStep pid tid now s (some data)) data2 hch2
    rw [h2]
    exact (handleProcessLogicE_preserves pid2 tid2 now2 _ data2).2.2.1

/-- Witness for C3 at concrete frames: a production change pushes the
entry once, and an identical follow-up frame pushes nothing. -/
theorem telemetry_enqueued_iff_changed_witness :
    (hasImportantChange (some cexFrame) cexFrame2 = true ↔
      ¬ sameImportantFields cexFrame2 cexFrame) ∧
    (readLoopStep 2 2 8 (readLoopStep 1 1 7 cexStateSaved (some cexFrame2))
        (some cexFrame2)).plcQueue =
      (readLoopStep 1 1 7 cexStateSaved (some cexFrame2)).plcQueue := by
  have h := telemetry_enqueued_iff_changed 1 1 7 2 2 8 cexStateSaved cexFrame2 cexFrame2
  exact ⟨h.1 cexFrame rfl, h.2.2.2 ⟨rfl, rfl, rfl, rfl, rfl, rfl, rfl⟩⟩

theorem handleProcessLogicE_open (pid tid now : Nat) (s : ServerState)
    (data : PlcData) (h1 : data.processStart = 1) (h0 : s.lastProcessStart = 0) :
    handleProcessLogicE pid tid now s data =
      ({ s with
          currentProcess := some (mkFreshProcess pid tid now data)
          lastProcessStart := 1 }, []) := by
  simp [handleProcessLogicE, h1, h0]

theorem handleProcessLogicE_keep (pid tid now : Nat) (s : ServerState)
    (data : PlcData) (h1 : data.processStart = 1) (h0 : s.lastProcessStart = 1) :
    handleProcessLogicE pid tid now s data = ({ s with lastProcessStart := 1 }, []) := by
  cases hcp : s.currentProcess <;> simp [handleProcessLogicE, h1, h0, hcp]

theorem handleProcessLogicE_close (pid tid now : Nat) (s : ServerState)
    (data : PlcData) (cp : Process) (h1 : data.processStart = 0)
    (h0 : s.lastProcessStart = 1) (hcp : s.currentProcess = some cp) :
    handleProcessLogicE pid tid now s data =
      ({ s with
          dbQueue := pushToDbQueue s.dbQueue (some "process_summary")
            (mkSummary cp data now) now
          currentProcess := none
          lastProcessStart := 0 }, [mkSummary cp data now]) := by
  simp [handleProcessLogicE, h1, h0, hcp]

theorem handleProcessLogicE_flag0_noClose (pid tid now : Nat) (s : ServerState)
    (data : PlcData) (h1 : data.processStart = 0) (h0 : s.lastProcessStart = 0) :
    handleProcessLogicE pid tid now s data = ({ s with lastProcessStart := 0 }, []) := by
  cases hcp : s.currentProcess <;> simp [handleProcessLogicE, h1, h0, hcp]

theorem runProcessLogic_edges (frames : List FrameIn) (s : ServerState)
    (hbin : ∀ f ∈ frames, f.data.processStart = 0 ∨ f.data.processStart = 1)
    (hbin0 : s.lastProcessStart = 0 ∨ s.lastProcessStart = 1)
    (hinv : s.currentProcess.isSome ↔ s.lastProcessStart = 1) :
    (runProcessLogic s frames).2.length =
      edges10 s.lastProcessStart (frames.map (fun f => f.data.processStart)) ∧
    ((runProcessLogic s frames).1.currentProcess.isSome ↔
      lastFlag s.lastProcessStart (frames.map (fun f => f.data.processStart)) = 1) ∧
    (runProcessLogic s frames).1.lastProcessStart =
      lastFlag s.lastProcessStart (frames.map (fun f => f.data.processStart)) := by
  induction frames generalizing s with
  | nil => exact ⟨rfl, hinv, rfl⟩
  | cons f fs ih =>
    have hbfs : ∀ g ∈ fs, g.data.processStart = 0 ∨ g.data.processStart = 1 :=
      fun g hg => hbin g (List.mem_cons_of_mem f hg)
    rcases hbin f (List.mem_cons_self f fs) with hf0 | hf1
    · rcases hbin0 with hl0 | hl1
      · have he := handleProcessLogicE_flag0_noClose f.pid f.tid f.now s f.data hf0 hl0
        have ihs := ih { s with lastProcessStart := 0 } hbfs (Or.inl rfl)
          (by rw [hl0] at hinv; exact hinv)
        simp only [runProcessLogic, he, List.map_cons]
        refine ⟨?_, ?_, ?_⟩
        · simpa [edges10, hf0, hl0] using ihs.1
        · simpa [lastFlag, hf0, hl0] using ihs.2.1
        · simpa [lastFlag, hf0, hl0] using ihs.2.2
      · obtain ⟨cp, hcp⟩ : ∃ cp, s.currentProcess = some cp := by
          have hs := hinv.mpr hl1
          cases hx : s.currentProcess
          · rw [hx] at hs; simp at hs
          · exact ⟨_, rfl⟩
        have he := handleProcessLogicE_close f.pid f.tid f.now s f.data cp hf0 hl1 hcp
        have ihs := ih { s with
            dbQueue := pushToDbQueue s.dbQueue (some "process_summary")
              (mkSummary cp f.data f.now) f.now
            currentProcess := none
            lastProcessStart := 0 } hbfs (Or.inl rfl) (by simp)
        simp only [runProcessLogic, he, List.map_cons]
        refine ⟨?_, ?_, ?_⟩
        · rw [List.length_append, ihs.1]
          simp [edges10, hf0, hl1]
          try omega
        · simpa [lastFlag, hf0, hl1] using ihs.2.1
        · simpa [lastFlag, hf0, hl1] using ihs.2.2
    · rcases hbin0 with hl0 | hl1
      · have he := handleProcessLogicE_open f.pid f.tid f.now s f.data hf1 hl0
        have ihs := ih { s with
            currentProcess := some (mkFreshProcess f.pid f.tid f.now f.data)
            lastProcessStart := 1 } hbfs (Or.inr rfl) (by simp)
        simp only [runProcessLogic, he, List.map_cons]
        refine ⟨?_, ?_, ?_⟩
        · simpa [edges10, hf1, hl0] using ihs.1
        · simpa [lastFlag, hf1, hl0] using ihs.2.1
        · simpa [lastFlag, hf1, hl0] using ihs.2.2
      · have he := handleProcessLogicE_keep f.pid f.tid f.now s f.data hf1 hl1
        have ihs := ih { s with lastProcessStart := 1 } hbfs (Or.inr rfl)
          (by rw [hl1] at hinv; exact hinv)
        simp only [runProcessLogic, he, List.map_cons]
        refine ⟨?_, ?_, ?_⟩
        · simpa [edges10, hf1, hl1] using ihs.1
        · simpa [lastFlag, hf1, hl1] using ihs.2.1
        · simpa [lastFlag, hf1, hl1] using ihs.2.2

/-- Claim C1: over any sequence of polled frames whose `processStart` flag
is 0/1, starting from the initial tracker state, the number of
`process_summary` records emitted equals the number of 1→0 edges of the
flag sequence (one per edge, none for 0→0 or 1→1 steps); a process is
open after the run exactly when the final flag is 1 (a 0→1 edge opens
one); and at the step level a frame with flag 1 while a process is open
leaves that same process in place, while a 0→1 edge installs the freshly
built process. -/
theorem processTracker_summary_per_edge (frames : List FrameIn) (s : ServerState)
    (hbin : ∀ f ∈ frames, f.data.processStart = 0 ∨ f.data.processStart = 1)
    (h0 : s.lastProcessStart = 0) (hcp : s.currentProcess = none) :
    ((runProcessLogic s frames).2.length =
      edges10 0 (frames.map (fun f => f.data.processStart))) ∧
    ((runProcessLogic s frames).1.currentProcess.isSome ↔
      lastFlag 0 (frames.map (fun f => f.data.processStart)) = 1) ∧
    (∀ (pid tid now : Nat) (s2 : ServerState) (data : PlcData) (p : Process),
        s2.currentProcess = some p → s2.lastProcessStart = 1 →
        data.processStart = 1 →
        (handleProcessLogic pid tid now s2 data).currentProcess = some p) ∧
    (∀ (pid tid now : Nat) (s2 : ServerState) (data : PlcData),
        s2.lastProcessStart = 0 → data.processStart = 1 →
        (handleProcessLogic pid tid now s2 data).currentProcess =
          some (mkFreshProcess pid tid now data)) := by
  have hmain := runProcessLogic_edges frames s hbin (Or.inl h0)
    (by rw [h0, hcp]; simp)
  rw [h0] at hmain
  refine ⟨hmain.1, hmain.2.1, ?_, ?_⟩
  · intro pid tid now s2 data p hp hl1 hd1
    rw [handleProcessLogic, handleProcessLogicE_keep pid tid now s2 data hd1 hl1]
    exact hp
  · intro pid tid now s2 data hl0 hd1
    rw [handleProcessLogic, handleProcessLogicE_open pid tid now s2 data hd1 hl0]

/-- Witness for C1 on the concrete flag sequence 1,1,0,1,0: the run
emits exactly as many summaries as there are 1→0 edges (two), and ends
with no open process. -/
theorem processTracker_summary_per_edge_witness :
    (runProcessLogic initialState cexFrames).2.length =
      edges10 0 (cexFrames.map (fun f => f.data.processStart)) ∧
    ((runProcessLogic initialState cexFrames).1.currentProcess.isSome ↔
      lastFlag 0 (cexFrames.map (fun f => f.data.processStart)) = 1) := by
  have h := processTracker_summary_per_edge cexFrames initialState (by decide) rfl rfl
  exact ⟨h.1, h.2.1⟩

theorem countJob_append (t : List (Nat × Nat)) (x : Nat × Nat) (j : Nat) :
    countJob (t ++ [x]) j = countJob t j + (if x.1 = j then 1 else 0) := by
  simp only [countJob, List.filter_append, List.length_append]
  congr 1
  by_cases h : x.1 = j
  · simp [List.filter, h]
  · simp [List.filter, beq_eq_false_iff_ne.mpr h, h]

theorem lockExec_invariants (jobs : List Nat) (t : List (Nat × Nat))
    (h : LockExec jobs t) :
    t.Pairwise (fun a b => a.1 ≤ b.1) ∧
    (∀ e ∈ t, ∀ i, i < e.1 → countJob t i = jobs.getD i 0) ∧
    (∀ j, countJob t j ≤ jobs.getD j 0) := by
  induction h with
  | nil => simp [countJob]
  | step t j hj hrun hprev hexec ih =>
    obtain ⟨ihp, ihc, ihb⟩ := ih
    have hle : ∀ e ∈ t, e.1 ≤ j := by
      intro e he
      by_contra hgt
      push_neg at hgt
      have := ihc e he j hgt
      omega
    refine ⟨?_, ?_, ?_⟩
    · rw [List.pairwise_append]
      refine ⟨ihp, List.pairwise_singleton _ _, ?_⟩
      intro a ha b hb
      rw [List.mem_singleton] at hb
      subst hb
      exact hle a ha
    · intro e he i hi
      rw [countJob_append]
      rcases List.mem_append.mp he with he2 | he2
      · have hij : ¬ (j : Nat) = i := by
          intro hEq
          subst hEq
          exact absurd (hle e he2) (by omega)
        rw [if_neg hij]
        simpa using ihc e he2 i hi
      · rw [List.mem_singleton] at he2
        subst he2
        dsimp at hi
        rw [if_neg (by omega : ¬ (j : Nat) = i)]
        simpa using hprev i hi
    · intro k
      rw [countJob_append]
      by_cases hk : (j : Nat) = k
      · subst hk
        rw [if_pos rfl]
        omega
      · rw [if_neg hk]
        simpa using ihb k

/-- Claim C9: transactions funneled through the `withPlcLock` promise chain
never interleave: in every execution trace the transaction indices are
monotone — all steps of an earlier-submitted transaction come before any
step of a later one (first-in-first-served), so no step of one
transaction ever falls between two steps of another. -/
theorem withPlcLock_serializes (jobs : List Nat) (t : List (Nat × Nat))
    (h : LockExec jobs t) :
    t.Pairwise (fun a b => a.1 ≤ b.1) ∧
    (∀ p q r : Fin t.length, p < q → q < r →
        (t.get p).1 = (t.get r).1 → (t.get q).1 = (t.get p).1) := by
  have hp := (lockExec_invariants jobs t h).1
  refine ⟨hp, ?_⟩
  intro p q r hpq hqr heq
  have h1 : (t.get p).1 ≤ (t.get q).1 := List.pairwise_iff_get.mp hp p q hpq
  have h2 : (t.get q).1 ≤ (t.get r).1 := List.pairwise_iff_get.mp hp q r hqr
  omega

/-- Witness for C9: a two-step read transaction followed by a
one-step write transaction; the scheduler derivation exists and the
trace is monotone in the transaction index. -/
theorem withPlcLock_serializes_witness :
    ([(0, 0), (0, 1), (1, 0)] : List (Nat × Nat)).Pairwise
      (fun a b => a.1 ≤ b.1) := by
  have h0 : LockExec [2, 1] [] := LockExec.nil
  have h1 : LockExec [2, 1] [(0, 0)] :=
    LockExec.step [] 0 (by decide) (by decide)
      (fun i hi => absurd hi (by omega)) h0
  have h2 : LockExec [2, 1] [(0, 0), (0, 1)] :=
    LockExec.step [(0, 0)] 0 (by decide) (by decide)
      (fun i hi => absurd hi (by omega)) h1
  have h3 : LockExec [2, 1] [(0, 0), (0, 1), (1, 0)] :=
    LockExec.step [(0, 0), (0, 1)] 1 (by decide) (by decide)
      (fun i hi => by
        have hz : i = 0 := by omega
        subst hz
        decide) h2
  exact (withPlcLock_serializes [2, 1] _ h3).1

end PlcBackend
